import Mathlib

/-!
Verification of the identity-reconciliation and stateful tracking core of the
Constellation Overwatch object-detection pipeline.

The definitions below are a shallow embedding of:
* `src/services/tracking_id.py` (`TrackingIDService`),
* `detect_yoloe_c4isr.py` (`C4ISRTrackingState` and the KV publish helpers),
* `src/services/communication/service.py` (`publish_state_to_kv`).

Python floats are modelled as rationals (`ℚ`), Python dicts as insertion-ordered
association lists, Python sets as `Finset`s, and the fallible NATS KV transport
as an explicit `Except`-returning store with a per-key failure oracle.
-/

namespace Overwatch

/-- Association-list lookup (first match); models Python `dict` access keyed by
arbitrary hashable keys. -/
def lookupA {κ β : Type} [DecidableEq κ] : List (κ × β) → κ → Option β
  | [], _ => none
  | (k, v) :: rest, key => if k = key then some v else lookupA rest key

/-- Association-list in-place update of the first entry carrying the given key;
models Python `dict` assignment to an existing key. -/
def setA {κ β : Type} [DecidableEq κ] : List (κ × β) → κ → β → List (κ × β)
  | [], _, _ => []
  | (k, v) :: rest, key, newv =>
    if k = key then (k, newv) :: rest else (k, v) :: setA rest key newv

/-- The last `n` elements of a list, i.e. Python `l[-n:]`. -/
def lastN {γ : Type} (n : Nat) (l : List γ) : List γ := l.drop (l.length - n)

/-! ## Identity Reconciler: `TrackingIDService` (`src/services/tracking_id.py`) -/

/-- State of `TrackingIDService`: the `(model_type, native_id) → CUID` map plus a
counter recording how many CUIDs the generator has emitted so far.  The CUID
generator itself is passed in as a function `gen : Nat → String` giving the
value of each successive `cuid_generator()` call. -/
structure TrackingIDService (α : Type) where
  id_mapping : List ((String × α) × String)
  counter : Nat

/-- A fresh `TrackingIDService` (constructor `__init__`). -/
def TrackingIDService.init {α : Type} : TrackingIDService α :=
  { id_mapping := [], counter := 0 }

/-- `TrackingIDService.get_or_create_cuid`: return the mapped CUID for
`(model_type, native_id)`, generating and storing a fresh one on first sight. -/
def get_or_create_cuid {α : Type} [DecidableEq α] (gen : Nat → String)
    (s : TrackingIDService α) (native_id : α) (model_type : String) :
    String × TrackingIDService α :=
  let key := (model_type, native_id)
  match lookupA s.id_mapping key with
  | some c => (c, s)
  | none =>
    (gen s.counter,
     { id_mapping := s.id_mapping ++ [(key, gen s.counter)], counter := s.counter + 1 })

/-- Run a sequence of `get_or_create_cuid` calls (each call is a
`(native_id, model_type)` pair), collecting the returned track IDs. -/
def runCalls {α : Type} [DecidableEq α] (gen : Nat → String) :
    TrackingIDService α → List (α × String) → TrackingIDService α × List String
  | s, [] => (s, [])
  | s, (nid, mt) :: rest =>
    let r := get_or_create_cuid gen s nid mt
    let rr := runCalls gen r.2 rest
    (rr.1, r.1 :: rr.2)

/-- Invariant of the reconciler state: every stored CUID was emitted by the
generator at some index below `counter`, and no CUID is stored twice. -/
def GoodState {α : Type} (gen : Nat → String) (s : TrackingIDService α) : Prop :=
  (s.id_mapping.map Prod.snd).Nodup ∧
    ∀ c ∈ s.id_mapping.map Prod.snd, ∃ n, n < s.counter ∧ c = gen n

/-! ## C4ISR tracking state (`detect_yoloe_c4isr.py`) -/

/-- A normalized bounding box `{x_min, y_min, x_max, y_max}`. -/
structure BBox where
  x_min : ℚ
  y_min : ℚ
  x_max : ℚ
  y_max : ℚ
deriving DecidableEq

/-- A threat alert as appended to `threat_alerts` in `update_object`. -/
structure Alert where
  alert_id : String
  track_id : String
  label : String
  threat_level : String
  confidence : ℚ
  first_detected : String
  bbox : BBox
  status : String
deriving DecidableEq

/-- The arguments of one `update_object` call beyond the track ID. -/
structure UpdArgs where
  label : String
  confidence : ℚ
  bbox : BBox
  ts : String
  threat : String
deriving DecidableEq

/-- The per-track-ID record stored in `tracked_objects`. -/
structure TrackedObj where
  track_id : String
  label : String
  threat_level : String
  first_seen : String
  last_seen : String
  frame_count : Nat
  total_confidence : ℚ
  avg_confidence : ℚ
  max_confidence : ℚ
  bbox_history : List BBox
  is_active : Bool
  suspicious_indicators : List String
deriving DecidableEq

/-- `C4ISRTrackingState._calculate_suspicious_indicators`: builds the indicator
list by three independent condition checks (Python floats `0.7`, `0.5` are the
rationals `7/10`, `1/2`). -/
def calculate_suspicious_indicators (label : String) (confidence : ℚ)
    (threat_level : String) : List String :=
  let indicators : List String := []
  let indicators :=
    if threat_level = "HIGH_THREAT" ∧ 7/10 < confidence then
      indicators ++ ["high_confidence_weapon_detection"] else indicators
  let indicators :=
    if threat_level = "MEDIUM_THREAT" ∧ 1/2 < confidence then
      indicators ++ ["suspicious_object_detected"] else indicators
  let indicators :=
    if threat_level = "HIGH_THREAT" ∧ confidence < 1/2 then
      indicators ++ ["uncertain_threat_requires_validation"] else indicators
  indicators

/-- The alert dict built in the new-object branch of `update_object`
(`alert_id` is the f-string `f"{track_id}_{frame_timestamp}"`). -/
def mkAlert (track_id : String) (a : UpdArgs) : Alert :=
  { alert_id := track_id ++ "_" ++ a.ts
    track_id := track_id
    label := a.label
    threat_level := a.threat
    confidence := a.confidence
    first_detected := a.ts
    bbox := a.bbox
    status := "active" }

/-- The fresh record created by `update_object` for a first-seen track ID. -/
def initObj (track_id : String) (a : UpdArgs) : TrackedObj :=
  { track_id := track_id
    label := a.label
    threat_level := a.threat
    first_seen := a.ts
    last_seen := a.ts
    frame_count := 1
    total_confidence := a.confidence
    avg_confidence := a.confidence
    max_confidence := a.confidence
    bbox_history := [a.bbox]
    is_active := true
    suspicious_indicators := calculate_suspicious_indicators a.label a.confidence a.threat }

/-- Trim a bbox history to its last 30 entries, exactly as `update_object` does
after appending (`if len(...) > 30: ... = ...[-30:]`). -/
def trimHistory (l : List BBox) : List BBox :=
  if 30 < l.length then lastN 30 l else l

/-- The in-place mutation `update_object` performs on an already-known record.
Note the source does not refresh `label` or `threat_level` here; the suspicious
indicators, however, are recomputed from the freshly supplied arguments. -/
def stepObj (obj : TrackedObj) (a : UpdArgs) : TrackedObj :=
  { obj with
    last_seen := a.ts
    frame_count := obj.frame_count + 1
    total_confidence := obj.total_confidence + a.confidence
    avg_confidence := (obj.total_confidence + a.confidence) / ((obj.frame_count : ℚ) + 1)
    max_confidence := max obj.max_confidence a.confidence
    bbox_history := trimHistory (obj.bbox_history ++ [a.bbox])
    is_active := true
    suspicious_indicators := calculate_suspicious_indicators a.label a.confidence a.threat }

/-- Overwrite the `is_active` flag of a record. -/
def setActive (b : Bool) (obj : TrackedObj) : TrackedObj := { obj with is_active := b }

/-- The mutable state of `C4ISRTrackingState`.  `threat_summary` is initialized
by the constructor and never touched again anywhere in the source. -/
structure C4ISRTrackingState where
  tracked_objects : List (String × TrackedObj)
  total_unique_objects : Nat
  total_frames_processed : Nat
  active_track_ids : Finset String
  threat_alerts : List Alert
  threat_summary : List (String × Nat)
deriving DecidableEq

/-- `C4ISRTrackingState.__init__`. -/
def initState : C4ISRTrackingState :=
  { tracked_objects := []
    total_unique_objects := 0
    total_frames_processed := 0
    active_track_ids := ∅
    threat_alerts := []
    threat_summary :=
      [("HIGH_THREAT", 0), ("MEDIUM_THREAT", 0), ("LOW_THREAT", 0), ("NORMAL", 0)] }

/-- `C4ISRTrackingState.update_object`. -/
def update_object (s : C4ISRTrackingState) (track_id label : String) (confidence : ℚ)
    (bbox : BBox) (frame_timestamp threat_level : String) : C4ISRTrackingState :=
  let a : UpdArgs :=
    { label := label, confidence := confidence, bbox := bbox
      ts := frame_timestamp, threat := threat_level }
  match lookupA s.tracked_objects track_id with
  | none =>
    { s with
      total_unique_objects := s.total_unique_objects + 1
      threat_alerts :=
        if threat_level = "HIGH_THREAT" ∨ threat_level = "MEDIUM_THREAT" then
          s.threat_alerts ++ [mkAlert track_id a]
        else s.threat_alerts
      tracked_objects := s.tracked_objects ++ [(track_id, initObj track_id a)]
      active_track_ids := insert track_id s.active_track_ids }
  | some obj =>
    { s with
      tracked_objects := setA s.tracked_objects track_id (stepObj obj a)
      active_track_ids := insert track_id s.active_track_ids }

/-- `C4ISRTrackingState.mark_inactive_objects`: every tracked ID absent from
`current` has its record flagged inactive and is discarded from the active-ID
set. -/
def mark_inactive_objects (s : C4ISRTrackingState) (current : Finset String) :
    C4ISRTrackingState :=
  { s with
    tracked_objects := s.tracked_objects.map fun p =>
      (p.1, if p.1 ∈ current then p.2 else setActive false p.2)
    active_track_ids := s.active_track_ids.filter fun tid =>
      tid ∈ current ∨ tid ∉ s.tracked_objects.map Prod.fst }

/-- `C4ISRTrackingState.get_persistent_objects`: the sub-dict of records with
`frame_count >= min_frames`. -/
def get_persistent_objects (s : C4ISRTrackingState) (min_frames : Nat := 3) :
    List (String × TrackedObj) :=
  s.tracked_objects.filter fun p => decide (min_frames ≤ p.2.frame_count)

/-- The records with `is_active` set, in insertion order (the list comprehension
at the top of `get_analytics`). -/
def activeObjects (s : C4ISRTrackingState) : List TrackedObj :=
  (s.tracked_objects.map Prod.snd).filter fun obj => obj.is_active

/-- The analytics snapshot returned by `C4ISRTrackingState.get_analytics`.  The
two distribution dicts are modelled as total count functions (a missing dict
key reads as count `0`, matching the consumers' `.get(k, 0)`). -/
structure Analytics where
  total_unique_objects : Nat
  total_frames_processed : Nat
  active_objects_count : Nat
  tracked_objects_count : Nat
  label_distribution : String → Nat
  threat_distribution : String → Nat
  active_threat_count : Nat
  active_track_ids : Finset String
  threat_alerts : List Alert

/-- `C4ISRTrackingState.get_analytics`. -/
def get_analytics (s : C4ISRTrackingState) : Analytics :=
  { total_unique_objects := s.total_unique_objects
    total_frames_processed := s.total_frames_processed
    active_objects_count := (activeObjects s).length
    tracked_objects_count := s.tracked_objects.length
    label_distribution := fun lbl => (activeObjects s).countP fun obj => obj.label == lbl
    threat_distribution := fun lvl =>
      (activeObjects s).countP fun obj => obj.threat_level == lvl
    active_threat_count :=
      ((activeObjects s).filter fun obj =>
        decide (obj.threat_level = "HIGH_THREAT" ∨ obj.threat_level = "MEDIUM_THREAT")).length
    active_track_ids := s.active_track_ids
    threat_alerts := lastN 10 s.threat_alerts }

/-- The `threat_summary` object assembled inside `publish_threat_intelligence`. -/
structure ThreatSummary where
  total_threats : Nat
  threat_distribution : String → Nat
  alert_level : String

/-- `threat_summary` of the threat-intelligence payload: `alert_level` is
`"HIGH"` when the analytics' `threat_distribution` reports at least one
`HIGH_THREAT`, else `"NORMAL"`. -/
def threatSummaryOf (s : C4ISRTrackingState) : ThreatSummary :=
  let analytics := get_analytics s
  { total_threats := analytics.active_threat_count
    threat_distribution := analytics.threat_distribution
    alert_level :=
      if 0 < analytics.threat_distribution "HIGH_THREAT" then "HIGH" else "NORMAL" }

/-! ## Traces of tracking-state operations -/

/-- One mutating operation on a `C4ISRTrackingState` during a session. -/
inductive Event where
  | upd (track_id : String) (a : UpdArgs)
  | mark (current : Finset String)

/-- Apply one operation. -/
def step (s : C4ISRTrackingState) : Event → C4ISRTrackingState
  | .upd tid a => update_object s tid a.label a.confidence a.bbox a.ts a.threat
  | .mark c => mark_inactive_objects s c

/-- Run a trace of operations from the freshly constructed state. -/
def run (es : List Event) : C4ISRTrackingState := es.foldl step initState

/-- The `update_object` calls a trace makes on a given track ID, in order. -/
def updsFor (tid : String) (es : List Event) : List UpdArgs :=
  es.filterMap fun e =>
    match e with
    | .upd t a => if t = tid then some a else none
    | .mark _ => none

/-- Whether a track ID counts as active after a trace: it was updated at some
point and no later `mark_inactive_objects` call omitted it. -/
def activeStatus (tid : String) (es : List Event) : Bool :=
  es.foldl
    (fun b e =>
      match e with
      | .upd t _ => if t = tid then true else b
      | .mark c => if tid ∈ c then b else false)
    false

/-- The record a list of `update_object` calls accumulates for one track ID,
ignoring activity flips: the first call seeds the record, later calls fold
`stepObj`. -/
def objOfUpdates (tid : String) : List UpdArgs → Option TrackedObj
  | [] => none
  | a :: rest => some (rest.foldl stepObj (initObj tid a))

/-! ## KV publish layer (`publish_tracking_state`, `publish_threat_intelligence`,
`OverwatchCommunication.publish_state_to_kv`) -/

/-- Per-object summary serialized by `publish_tracking_state` in
`detect_yoloe.py`. -/
structure ObjSummary where
  track_id : String
  label : String
  first_seen : String
  last_seen : String
  frame_count : Nat
  avg_confidence : ℚ
  is_active : Bool
  current_bbox : Option BBox

/-- Build the per-object summary (`current_bbox` is the last history entry, or
`None` on an empty history). -/
def objSummaryOf (obj : TrackedObj) : ObjSummary :=
  { track_id := obj.track_id
    label := obj.label
    first_seen := obj.first_seen
    last_seen := obj.last_seen
    frame_count := obj.frame_count
    avg_confidence := obj.avg_confidence
    is_active := obj.is_active
    current_bbox := obj.bbox_history.getLast? }

/-- The `state_data` payload of `publish_tracking_state` (the wall-clock
timestamp and device fingerprint carried alongside are environment inputs and
are not modelled). -/
structure StateData where
  entity_id : String
  analytics : Analytics
  tracked_objects : List (String × ObjSummary)

/-- Assemble `state_data` from the tracking state. -/
def stateDataOf (s : C4ISRTrackingState) (eid : String) : StateData :=
  { entity_id := eid
    analytics := get_analytics s
    tracked_objects :=
      (get_persistent_objects s 3).map fun p => (p.1, objSummaryOf p.2) }

/-- Per-object summary serialized by `publish_threat_intelligence` in
`detect_yoloe_c4isr.py`. -/
structure ThreatObjSummary where
  track_id : String
  label : String
  threat_level : String
  first_seen : String
  last_seen : String
  frame_count : Nat
  avg_confidence : ℚ
  max_confidence : ℚ
  is_active : Bool
  suspicious_indicators : List String
  current_bbox : Option BBox

/-- Build the threat-intelligence per-object summary. -/
def threatObjSummaryOf (obj : TrackedObj) : ThreatObjSummary :=
  { track_id := obj.track_id
    label := obj.label
    threat_level := obj.threat_level
    first_seen := obj.first_seen
    last_seen := obj.last_seen
    frame_count := obj.frame_count
    avg_confidence := obj.avg_confidence
    max_confidence := obj.max_confidence
    is_active := obj.is_active
    suspicious_indicators := obj.suspicious_indicators
    current_bbox := obj.bbox_history.getLast? }

/-- The `threat_data` payload of `publish_threat_intelligence`. -/
structure ThreatData where
  entity_id : String
  mission : String
  analytics : Analytics
  threat_summary : ThreatSummary
  tracked_objects : List (String × ThreatObjSummary)
  threat_alerts : List Alert

/-- Assemble `threat_data` from the tracking state. -/
def threatDataOf (s : C4ISRTrackingState) (eid : String) : ThreatData :=
  { entity_id := eid
    mission := "C4ISR"
    analytics := get_analytics s
    threat_summary := threatSummaryOf s
    tracked_objects :=
      (get_persistent_objects s 3).map fun p => (p.1, threatObjSummaryOf p.2)
    threat_alerts := (get_analytics s).threat_alerts }

/-- A value written to the KV bucket. -/
inductive KVValue where
  | state : StateData → KVValue
  | analyticsSummary : Analytics → KVValue
  | threatIntel : ThreatData → KVValue

/-- The NATS KV bucket together with a transport oracle saying which `put`
calls raise. -/
structure KVStore where
  entries : List (String × KVValue)
  putFails : String → Bool

/-- `kv.put(key, value)`: raises (models a NATS transport error) whenever the
oracle says so, otherwise records the write. -/
def KVStore.put (kv : KVStore) (k : String) (v : KVValue) : Except String KVStore :=
  if kv.putFails k then Except.error "kv put failed"
  else Except.ok { kv with entries := kv.entries ++ [(k, v)] }

/-- `publish_tracking_state(kv, tracking_state, entity_id)` from
`detect_yoloe.py`: returns what the caller observes — possibly a propagated
exception (`Except.error`), otherwise the surviving KV store and the tracking
state.  The bare `if not kv: return` and the enclosing `try/except` that logs
and continues are translated branch for branch. -/
def publish_tracking_state (kv : Option KVStore) (s : C4ISRTrackingState)
    (eid : String) : Except String (Option KVStore × C4ISRTrackingState) :=
  match kv with
  | none => Except.ok (none, s)
  | some store =>
    match store.put (eid ++ ".detections.tracking_objects")
        (KVValue.state (stateDataOf s eid)) with
    | Except.error _ => Except.ok (some store, s)
    | Except.ok st1 =>
      match st1.put (eid ++ ".analytics.summary")
          (KVValue.analyticsSummary (get_analytics s)) with
      | Except.error _ => Except.ok (some st1, s)
      | Except.ok st2 => Except.ok (some st2, s)

/-- `publish_threat_intelligence(kv, tracking_state, entity_id)` from
`detect_yoloe_c4isr.py`, translated the same way. -/
def publish_threat_intelligence (kv : Option KVStore) (s : C4ISRTrackingState)
    (eid : String) : Except String (Option KVStore × C4ISRTrackingState) :=
  match kv with
  | none => Except.ok (none, s)
  | some store =>
    match store.put (eid ++ ".c4isr.threat_intelligence")
        (KVValue.threatIntel (threatDataOf s eid)) with
    | Except.error _ => Except.ok (some store, s)
    | Except.ok st1 =>
      match st1.put (eid ++ ".analytics.c4isr_summary")
          (KVValue.analyticsSummary (get_analytics s)) with
      | Except.error _ => Except.ok (some st1, s)
      | Except.ok st2 => Except.ok (some st2, s)

/-- `OverwatchCommunication.publish_state_to_kv(tracking_state, analytics)` from
`src/services/communication/service.py` (the analytics dict is supplied by the
caller there). -/
def publish_state_to_kv (kv : Option KVStore) (s : C4ISRTrackingState)
    (analytics : Analytics) (eid : String) :
    Except String (Option KVStore × C4ISRTrackingState) :=
  match kv with
  | none => Except.ok (none, s)
  | some store =>
    match store.put (eid ++ ".detections.objects")
        (KVValue.state
          { entity_id := eid
            analytics := analytics
            tracked_objects :=
              (get_persistent_objects s 3).map fun p => (p.1, objSummaryOf p.2) }) with
    | Except.error _ => Except.ok (some store, s)
    | Except.ok st1 =>
      match st1.put (eid ++ ".analytics.summary")
          (KVValue.analyticsSummary analytics) with
      | Except.error _ => Except.ok (some st1, s)
      | Except.ok st2 => Except.ok (some st2, s)

/-! ### Concrete fixtures used by witness theorems -/

/-- An injective stand-in for the CUID generator stream. -/
def wgen (n : Nat) : String := String.mk (List.replicate n 'a')

/-- A concrete call sequence to the reconciler: native IDs `7, 7, 3`, all from
model `"yoloe"`. -/
def wcalls : List (Nat × String) := [(7, "yoloe"), (7, "yoloe"), (3, "yoloe")]

def wArgsA : UpdArgs :=
  { label := "person", confidence := 3/5, bbox := ⟨0, 0, 1/2, 1/2⟩
    ts := "2025-01-01T00:00:00Z", threat := "LOW_THREAT" }

def wArgsB : UpdArgs :=
  { label := "knife", confidence := 9/10, bbox := ⟨1/4, 1/4, 1, 1⟩
    ts := "2025-01-01T00:00:01Z", threat := "HIGH_THREAT" }

/-- One frame seeing objects `A` and `B` once each. -/
def wTraceAB : List Event := [Event.upd "A" wArgsA, Event.upd "B" wArgsB]

/-- Two successive updates of one track `T`. -/
def wTraceT : List Event := [Event.upd "T" wArgsA, Event.upd "T" wArgsB]

/-- An empty KV store whose transport never fails. -/
def wStore : KVStore := { entries := [], putFails := fun _ => false }

/-! ### Association-list lemmas -/

theorem lookupA_append_some {κ β : Type} [DecidableEq κ] {l₁ : List (κ × β)}
    (l₂ : List (κ × β)) {k : κ} {v : β} (h : lookupA l₁ k = some v) :
    lookupA (l₁ ++ l₂) k = some v := by
  induction l₁ with
  | nil => simp [lookupA] at h
  | cons p rest ih =>
    by_cases hk : p.1 = k
    · simpa [lookupA, hk] using h
    · simp only [lookupA, hk, if_neg, List.cons_append] at h ⊢
      exact ih h

theorem lookupA_append_none {κ β : Type} [DecidableEq κ] {l₁ : List (κ × β)}
    (l₂ : List (κ × β)) {k : κ} (h : lookupA l₁ k = none) :
    lookupA (l₁ ++ l₂) k = lookupA l₂ k := by
  induction l₁ with
  | nil => simp [lookupA]
  | cons p rest ih =>
    by_cases hk : p.1 = k
    · simp [lookupA, hk] at h
    · simp only [lookupA, hk, if_neg, List.cons_append] at h ⊢
      exact ih h

theorem lookupA_singleton_self {κ β : Type} [DecidableEq κ] (k : κ) (v : β) :
    lookupA [(k, v)] k = some v := by
  simp [lookupA]

theorem lookupA_setA_self {κ β : Type} [DecidableEq κ] {l : List (κ × β)} {k : κ}
    {o : β} (v : β) (h : lookupA l k = some o) :
    lookupA (setA l k v) k = some v := by
  induction l with
  | nil => simp [lookupA] at h
  | cons p rest ih =>
    by_cases hk : p.1 = k
    · simp [lookupA, setA, hk]
    · simp only [lookupA, setA, hk, if_neg] at h ⊢
      exact ih h

theorem lookupA_setA_ne {κ β : Type} [DecidableEq κ] (l : List (κ × β)) {k k' : κ}
    (v : β) (h : k' ≠ k) : lookupA (setA l k' v) k = lookupA l k := by
  induction l with
  | nil => simp [setA]
  | cons p rest ih =>
    by_cases hk : p.1 = k'
    · have : p.1 ≠ k := by rw [hk]; exact h
      simp [lookupA, setA, hk, this, h]
    · simp only [setA, hk, if_neg, lookupA]
      by_cases hpk : p.1 = k
      · simp [hpk]
      · simp [hpk, ih]

theorem lookupA_map_snd {κ β : Type} [DecidableEq κ] (l : List (κ × β))
    (f : κ → β → β) (k : κ) :
    lookupA (l.map fun p => (p.1, f p.1 p.2)) k = (lookupA l k).map (f k) := by
  induction l with
  | nil => simp [lookupA]
  | cons p rest ih =>
    by_cases hk : p.1 = k
    · subst hk; simp [lookupA, ih]
    · simp [lookupA, hk, ih]

theorem lookupA_eq_none_iff {κ β : Type} [DecidableEq κ] (l : List (κ × β)) (k : κ) :
    lookupA l k = none ↔ k ∉ l.map Prod.fst := by
  induction l with
  | nil => simp [lookupA]
  | cons p rest ih =>
    by_cases hk : p.1 = k
    · simp [lookupA, hk]
    · simp [lookupA, hk, ih, Ne.symm hk]

theorem lookupA_mem_keys {κ β : Type} [DecidableEq κ] {l : List (κ × β)} {k : κ}
    {v : β} (h : lookupA l k = some v) : k ∈ l.map Prod.fst := by
  by_contra hmem
  rw [← lookupA_eq_none_iff] at hmem
  rw [hmem] at h
  exact Option.noConfusion h

theorem lookupA_mem_values {κ β : Type} [DecidableEq κ] {l : List (κ × β)} {k : κ}
    {v : β} (h : lookupA l k = some v) : v ∈ l.map Prod.snd := by
  induction l with
  | nil => simp [lookupA] at h
  | cons p rest ih =>
    by_cases hk : p.1 = k
    · simp only [lookupA, hk, if_pos, Option.some.injEq] at h
      simp [← h]
    · simp only [lookupA, hk, if_neg] at h
      simp [ih h]

theorem setA_map_fst {κ β : Type} [DecidableEq κ] (l : List (κ × β)) (k : κ) (v : β) :
    (setA l k v).map Prod.fst = l.map Prod.fst := by
  induction l with
  | nil => simp [setA]
  | cons p rest ih =>
    by_cases hk : p.1 = k <;> simp [setA, hk, ih]

theorem setA_length {κ β : Type} [DecidableEq κ] (l : List (κ × β)) (k : κ) (v : β) :
    (setA l k v).length = l.length := by
  induction l with
  | nil => simp [setA]
  | cons p rest ih =>
    by_cases hk : p.1 = k <;> simp [setA, hk, ih]

theorem lookupA_filter_of_not_mem {κ β : Type} [DecidableEq κ] {l : List (κ × β)}
    {k : κ} (f : κ × β → Bool) (h : k ∉ l.map Prod.fst) :
    lookupA (l.filter f) k = none := by
  induction l with
  | nil => simp [lookupA]
  | cons p rest ih =>
    simp only [List.map_cons, List.mem_cons] at h
    push_neg at h
    have hne : p.1 ≠ k := fun hh => h.1 hh.symm
    by_cases hf : f p = true
    · simp only [List.filter_cons_of_pos hf, lookupA, hne, if_neg]
      exact ih h.2
    · simp only [List.filter_cons_of_neg hf]
      exact ih h.2

theorem lookupA_filter_snd {κ β : Type} [DecidableEq κ] {l : List (κ × β)}
    (hnd : (l.map Prod.fst).Nodup) (f : β → Bool) (k : κ) :
    lookupA (l.filter fun p => f p.2) k =
      (lookupA l k).bind fun v => if f v then some v else none := by
  induction l with
  | nil => simp [lookupA]
  | cons p rest ih =>
    simp only [List.map_cons, List.nodup_cons] at hnd
    by_cases hk : p.1 = k
    · subst hk
      by_cases hf : f p.2 = true
      · simp only [List.filter_cons, hf, if_true]
        simp [lookupA, hf]
      · simp only [List.filter_cons, hf, Bool.false_eq_true, if_false]
        rw [lookupA_filter_of_not_mem _ hnd.1]
        simp [lookupA, hf]
    · have hcons : lookupA (p :: rest) k = lookupA rest k := by simp [lookupA, hk]
      rw [hcons]
      by_cases hf : f p.2 = true
      · simp only [List.filter_cons, hf, if_true]
        have hstep : lookupA (p :: rest.filter fun q => f q.2) k =
            lookupA (rest.filter fun q => f q.2) k := by simp [lookupA, hk]
        rw [hstep]
        exact ih hnd.2
      · simp only [List.filter_cons, hf, Bool.false_eq_true, if_false]
        exact ih hnd.2

theorem lookupA_inj_of_values_nodup {κ β : Type} [DecidableEq κ] {l : List (κ × β)}
    (hnd : (l.map Prod.snd).Nodup) {k₁ k₂ : κ} {v : β}
    (h₁ : lookupA l k₁ = some v) (h₂ : lookupA l k₂ = some v) : k₁ = k₂ := by
  induction l with
  | nil => simp [lookupA] at h₁
  | cons p rest ih =>
    simp only [List.map_cons, List.nodup_cons] at hnd
    by_cases hka : p.1 = k₁ <;> by_cases hkb : p.1 = k₂
    · rw [← hka, ← hkb]
    · exfalso
      simp only [lookupA, hka, if_pos, Option.some.injEq] at h₁
      simp only [lookupA, hkb, if_neg] at h₂
      exact hnd.1 (h₁ ▸ lookupA_mem_values h₂)
    · exfalso
      simp only [lookupA, hkb, if_pos, Option.some.injEq] at h₂
      simp only [lookupA, hka, if_neg] at h₁
      exact hnd.1 (h₂ ▸ lookupA_mem_values h₁)
    · simp only [lookupA, hka, hkb, if_neg] at h₁ h₂
      exact ih hnd.2 h₁ h₂

/-! ### Bounded-history lemmas -/

theorem lastN_length {γ : Type} (n : Nat) (l : List γ) :
    (lastN n l).length = min l.length n := by
  simp only [lastN, List.length_drop]
  omega

theorem lastN_of_length_le {γ : Type} {n : Nat} {l : List γ} (h : l.length ≤ n) :
    lastN n l = l := by
  simp [lastN, Nat.sub_eq_zero_of_le h]

theorem trimHistory_lastN (l : List BBox) (b : BBox) :
    trimHistory (lastN 30 l ++ [b]) = lastN 30 (l ++ [b]) := by
  by_cases h : l.length ≤ 29
  · rw [lastN_of_length_le (by omega)]
    have hlen : (l ++ [b]).length ≤ 30 := by simp; omega
    rw [trimHistory, if_neg (by omega), lastN_of_length_le hlen]
  · push_neg at h
    have hge : 30 ≤ l.length := h
    set k := l.length - 30 with hk
    have hdlen : (l.drop k).length = 30 := by rw [List.length_drop]; omega
    have hcond : 30 < (lastN 30 l ++ [b]).length := by
      rw [List.length_append, lastN_length]
      simp
      omega
    rw [trimHistory, if_pos hcond]
    show lastN 30 (l.drop k ++ [b]) = lastN 30 (l ++ [b])
    unfold lastN
    have h1 : (l.drop k ++ [b]).length - 30 = 1 := by
      rw [List.length_append, hdlen]
      simp
    have h2 : (l ++ [b]).length - 30 = k + 1 := by
      rw [List.length_append]
      simp
      omega
    rw [h1, h2]
    rw [List.drop_append_of_le_length (by rw [hdlen]; omega)]
    rw [List.drop_append_of_le_length (by omega)]
    rw [List.drop_drop]

/-! ### Per-record fold lemmas for repeated `update_object` calls -/

theorem foldl_stepObj_track_id (l : List UpdArgs) (o : TrackedObj) :
    (l.foldl stepObj o).track_id = o.track_id := by
  induction l generalizing o with
  | nil => rfl
  | cons a rest ih => simp [List.foldl_cons, ih, stepObj]

theorem foldl_stepObj_first_seen (l : List UpdArgs) (o : TrackedObj) :
    (l.foldl stepObj o).first_seen = o.first_seen := by
  induction l generalizing o with
  | nil => rfl
  | cons a rest ih => simp [List.foldl_cons, ih, stepObj]

theorem foldl_stepObj_frame_count (l : List UpdArgs) (o : TrackedObj) :
    (l.foldl stepObj o).frame_count = o.frame_count + l.length := by
  induction l generalizing o with
  | nil => rfl
  | cons a rest ih =>
    simp only [List.foldl_cons, ih, stepObj, List.length_cons]
    omega

theorem foldl_stepObj_total (l : List UpdArgs) (o : TrackedObj) :
    (l.foldl stepObj o).total_confidence =
      o.total_confidence + (l.map UpdArgs.confidence).sum := by
  induction l generalizing o with
  | nil => simp
  | cons a rest ih =>
    simp only [List.foldl_cons, ih, stepObj, List.map_cons, List.sum_cons]
    ring

theorem foldl_stepObj_avg (l : List UpdArgs) (o : TrackedObj)
    (h : o.avg_confidence = o.total_confidence / (o.frame_count : ℚ)) :
    (l.foldl stepObj o).avg_confidence =
      (l.foldl stepObj o).total_confidence / ((l.foldl stepObj o).frame_count : ℚ) := by
  induction l generalizing o with
  | nil => exact h
  | cons a rest ih =>
    simp only [List.foldl_cons]
    refine ih (stepObj o a) ?_
    simp only [stepObj]
    push_cast
    ring_nf

theorem foldl_stepObj_max (l : List UpdArgs) (o : TrackedObj) :
    (l.foldl stepObj o).max_confidence =
      (l.map UpdArgs.confidence).foldl max o.max_confidence := by
  induction l generalizing o with
  | nil => rfl
  | cons a rest ih => simp [List.foldl_cons, ih, stepObj]

theorem foldl_stepObj_history (l : List UpdArgs) (o : TrackedObj) (B : List BBox)
    (h : o.bbox_history = lastN 30 B) :
    (l.foldl stepObj o).bbox_history = lastN 30 (B ++ l.map UpdArgs.bbox) := by
  induction l generalizing o B with
  | nil => simpa using h
  | cons a rest ih =>
    simp only [List.foldl_cons, List.map_cons]
    have hstep : (stepObj o a).bbox_history = lastN 30 (B ++ [a.bbox]) := by
      simp only [stepObj, h]
      exact trimHistory_lastN B a.bbox
    have := ih (stepObj o a) (B ++ [a.bbox]) hstep
    simpa [List.append_assoc] using this

/-- `foldl max` stays above its seed. -/
theorem le_foldl_max {l : List ℚ} {a : ℚ} : a ≤ l.foldl max a := by
  induction l generalizing a with
  | nil => exact le_refl a
  | cons x rest ih => exact le_trans (le_max_left a x) ih

/-- `foldl max` dominates every list element. -/
theorem mem_le_foldl_max {l : List ℚ} {a x : ℚ} (hx : x ∈ l) : x ≤ l.foldl max a := by
  induction l generalizing a with
  | nil => simp at hx
  | cons y rest ih =>
    rcases List.mem_cons.mp hx with h | h
    · subst h
      exact le_trans (le_max_right a x) le_foldl_max
    · exact ih h

/-- `foldl max` is attained by the seed or a list element. -/
theorem foldl_max_mem {l : List ℚ} {a : ℚ} : l.foldl max a = a ∨ l.foldl max a ∈ l := by
  induction l generalizing a with
  | nil => exact Or.inl rfl
  | cons x rest ih =>
    simp only [List.foldl_cons]
    rcases @ih (max a x) with h | h
    · rcases max_cases a x with ⟨he, _⟩ | ⟨he, _⟩
      · exact Or.inl (h.trans he)
      · exact Or.inr (by rw [h, he]; exact List.mem_cons_self x rest)
    · exact Or.inr (List.mem_cons_of_mem x h)

/-! ### Trace lemmas -/

@[simp] theorem UpdArgs.eta (a : UpdArgs) :
    UpdArgs.mk a.label a.confidence a.bbox a.ts a.threat = a := rfl

theorem setActive_setActive (b b' : Bool) (o : TrackedObj) :
    setActive b (setActive b' o) = setActive b o := rfl

theorem stepObj_setActive (b : Bool) (o : TrackedObj) (a : UpdArgs) :
    stepObj (setActive b o) a = stepObj o a := rfl

theorem setActive_true_stepObj (o : TrackedObj) (a : UpdArgs) :
    setActive true (stepObj o a) = stepObj o a := rfl

theorem setActive_true_initObj (tid : String) (a : UpdArgs) :
    setActive true (initObj tid a) = initObj tid a := rfl

theorem run_append (es : List Event) (e : Event) :
    run (es ++ [e]) = step (run es) e := by
  simp [run, List.foldl_append]

theorem updsFor_append_upd (tid t : String) (es : List Event) (a : UpdArgs) :
    updsFor tid (es ++ [Event.upd t a]) =
      updsFor tid es ++ (if t = tid then [a] else []) := by
  by_cases h : t = tid <;> simp [updsFor, List.filterMap_append, h]

theorem updsFor_append_mark (tid : String) (es : List Event) (c : Finset String) :
    updsFor tid (es ++ [Event.mark c]) = updsFor tid es := by
  simp [updsFor, List.filterMap_append]

theorem activeStatus_append_upd (tid t : String) (es : List Event) (a : UpdArgs) :
    activeStatus tid (es ++ [Event.upd t a]) =
      if t = tid then true else activeStatus tid es := by
  by_cases h : t = tid <;> simp [activeStatus, List.foldl_append, h]

theorem activeStatus_append_mark (tid : String) (es : List Event) (c : Finset String) :
    activeStatus tid (es ++ [Event.mark c]) =
      if tid ∈ c then activeStatus tid es else false := by
  by_cases h : tid ∈ c <;> simp [activeStatus, List.foldl_append, h]

theorem objOfUpdates_eq_none_iff (tid : String) (as : List UpdArgs) :
    objOfUpdates tid as = none ↔ as = [] := by
  cases as <;> simp [objOfUpdates]

theorem objOfUpdates_append (tid : String) (as : List UpdArgs) (a : UpdArgs) :
    objOfUpdates tid (as ++ [a]) =
      some
        (match objOfUpdates tid as with
         | none => initObj tid a
         | some o => stepObj o a) := by
  cases as with
  | nil => rfl
  | cons a0 rest => simp [objOfUpdates, List.foldl_append]

theorem lookupA_append_single_ne {κ β : Type} [DecidableEq κ] (l : List (κ × β))
    {t k : κ} (v : β) (h : t ≠ k) : lookupA (l ++ [(t, v)]) k = lookupA l k := by
  cases hl : lookupA l k with
  | some w => exact lookupA_append_some _ hl
  | none =>
    rw [lookupA_append_none _ hl]
    simp [lookupA, h]

/-- Master characterization of a tracked record after an arbitrary trace: the
record under `tid` is exactly the pure fold of all `update_object` calls made
on `tid`, with the `is_active` flag determined by whether a
`mark_inactive_objects` call omitting `tid` happened after the last update. -/
theorem tracked_characterization (es : List Event) (tid : String) :
    lookupA (run es).tracked_objects tid =
      (objOfUpdates tid (updsFor tid es)).map (setActive (activeStatus tid es)) := by
  induction es using List.reverseRecOn with
  | nil => rfl
  | append_singleton es e ih =>
    rw [run_append]
    cases e with
    | mark c =>
      rw [updsFor_append_mark, activeStatus_append_mark]
      show lookupA (mark_inactive_objects (run es) c).tracked_objects tid = _
      have hmap :
          lookupA ((run es).tracked_objects.map fun p =>
              (p.1, if p.1 ∈ c then p.2 else setActive false p.2)) tid =
            (lookupA (run es).tracked_objects tid).map
              (fun v => if tid ∈ c then v else setActive false v) := by
        simpa using
          lookupA_map_snd (run es).tracked_objects
            (fun k v => if k ∈ c then v else setActive false v) tid
      show lookupA ((run es).tracked_objects.map fun p =>
          (p.1, if p.1 ∈ c then p.2 else setActive false p.2)) tid = _
      rw [hmap, ih]
      cases hobj : objOfUpdates tid (updsFor tid es) with
      | none => simp
      | some o =>
        by_cases hc : tid ∈ c <;>
          simp [hc, Option.map_some, setActive_setActive]
    | upd t a =>
      show lookupA (update_object (run es) t a.label a.confidence a.bbox a.ts
          a.threat).tracked_objects tid = _
      rw [updsFor_append_upd, activeStatus_append_upd]
      by_cases ht : t = tid
      · subst ht
        cases hl : lookupA (run es).tracked_objects t with
        | none =>
          have hnil : updsFor t es = [] := by
            rw [ih] at hl
            exact (objOfUpdates_eq_none_iff t _).mp (Option.map_eq_none'.mp hl)
          simp only [update_object, hl]
          rw [lookupA_append_none _ hl, lookupA_singleton_self]
          simp [hnil, objOfUpdates, setActive_true_initObj]
        | some obj =>
          simp only [update_object, hl, UpdArgs.eta]
          rw [lookupA_setA_self _ hl]
          have hl' := hl
          rw [ih] at hl'
          rcases Option.map_eq_some'.mp hl' with ⟨o, ho, hobj⟩
          simp only [eq_self_iff_true, if_true, List.append_nil, objOfUpdates_append, ho]
          rw [← hobj, stepObj_setActive]
          simp [setActive_true_stepObj]
      · cases hl : lookupA (run es).tracked_objects t with
        | none =>
          simp only [update_object, hl, UpdArgs.eta]
          rw [lookupA_append_single_ne _ _ ht, ih]
          simp [ht]
        | some obj =>
          simp only [update_object, hl, UpdArgs.eta]
          rw [lookupA_setA_ne _ _ ht, ih]
          simp [ht]

/-! ### Single-step lemmas on the tracking state -/

theorem lookupA_mark (s : C4ISRTrackingState) (c : Finset String) (tid : String) :
    lookupA (mark_inactive_objects s c).tracked_objects tid =
      (lookupA s.tracked_objects tid).map
        (fun v => if tid ∈ c then v else setActive false v) := by
  show lookupA (s.tracked_objects.map _) tid = _
  simpa using
    lookupA_map_snd s.tracked_objects
      (fun k v => if k ∈ c then v else setActive false v) tid

theorem mark_mem_active (s : C4ISRTrackingState) (c : Finset String) (tid : String) :
    tid ∈ (mark_inactive_objects s c).active_track_ids ↔
      tid ∈ s.active_track_ids ∧
        (tid ∈ c ∨ tid ∉ s.tracked_objects.map Prod.fst) := by
  show tid ∈ s.active_track_ids.filter _ ↔ _
  exact Finset.mem_filter

theorem lookupA_update_self_none (s : C4ISRTrackingState) (tid label : String)
    (confidence : ℚ) (bbox : BBox) (frame_timestamp threat_level : String)
    (h : lookupA s.tracked_objects tid = none) :
    lookupA (update_object s tid label confidence bbox frame_timestamp
        threat_level).tracked_objects tid =
      some (initObj tid
        { label := label, confidence := confidence, bbox := bbox
          ts := frame_timestamp, threat := threat_level }) := by
  simp only [update_object, h]
  rw [lookupA_append_none _ h, lookupA_singleton_self]

theorem lookupA_update_self_some (s : C4ISRTrackingState) (tid label : String)
    (confidence : ℚ) (bbox : BBox) (frame_timestamp threat_level : String)
    {obj : TrackedObj} (h : lookupA s.tracked_objects tid = some obj) :
    lookupA (update_object s tid label confidence bbox frame_timestamp
        threat_level).tracked_objects tid =
      some (stepObj obj
        { label := label, confidence := confidence, bbox := bbox
          ts := frame_timestamp, threat := threat_level }) := by
  simp only [update_object, h]
  exact lookupA_setA_self _ h

theorem lookupA_update_ne (s : C4ISRTrackingState) (t label : String)
    (confidence : ℚ) (bbox : BBox) (frame_timestamp threat_level : String)
    {tid : String} (h : t ≠ tid) :
    lookupA (update_object s t label confidence bbox frame_timestamp
        threat_level).tracked_objects tid = lookupA s.tracked_objects tid := by
  cases hl : lookupA s.tracked_objects t with
  | none =>
    simp only [update_object, hl]
    exact lookupA_append_single_ne _ _ h
  | some obj =>
    simp only [update_object, hl]
    exact lookupA_setA_ne _ _ h

theorem mark_tracked_map_fst (s : C4ISRTrackingState) (c : Finset String) :
    (mark_inactive_objects s c).tracked_objects.map Prod.fst =
      s.tracked_objects.map Prod.fst := by
  show (s.tracked_objects.map _).map Prod.fst = _
  rw [List.map_map]
  rfl

/-- Along any trace, the keys of `tracked_objects` stay free of duplicates
(Python dict keys). -/
theorem run_keys_nodup (es : List Event) :
    ((run es).tracked_objects.map Prod.fst).Nodup := by
  induction es using List.reverseRecOn with
  | nil => simp [run, initState]
  | append_singleton es e ih =>
    rw [run_append]
    cases e with
    | mark c =>
      show ((mark_inactive_objects (run es) c).tracked_objects.map Prod.fst).Nodup
      rw [mark_tracked_map_fst]
      exact ih
    | upd t a =>
      show ((update_object (run es) t a.label a.confidence a.bbox a.ts
          a.threat).tracked_objects.map Prod.fst).Nodup
      cases hl : lookupA (run es).tracked_objects t with
      | none =>
        have hmem : t ∉ (run es).tracked_objects.map Prod.fst :=
          (lookupA_eq_none_iff _ _).mp hl
        simp only [update_object, hl]
        rw [List.map_append]
        refine List.Nodup.append ih (List.nodup_singleton _) ?_
        intro x hx hx2
        simp at hx2
        subst hx2
        exact hmem hx
      | some obj =>
        simp only [update_object, hl]
        rw [setA_map_fst]
        exact ih

/-! ### Claim theorems -/

/-- C7: For every `(label, confidence, threat_level)`,
`_calculate_suspicious_indicators` returns exactly the indicator prescribed by
the rule table — `HIGH_THREAT` with confidence > 0.7 gives
`"high_confidence_weapon_detection"`, `MEDIUM_THREAT` with confidence > 0.5
gives `"suspicious_object_detected"`, `HIGH_THREAT` with confidence < 0.5 gives
`"uncertain_threat_requires_validation"`, and the empty set otherwise — and the
conditions are mutually exclusive, so the result never holds more than one
indicator. -/
theorem c7_suspicious_indicator_table (label : String) (confidence : ℚ)
    (threat_level : String) :
    calculate_suspicious_indicators label confidence threat_level =
      (if threat_level = "HIGH_THREAT" ∧ 7/10 < confidence then
        ["high_confidence_weapon_detection"]
      else if threat_level = "MEDIUM_THREAT" ∧ 1/2 < confidence then
        ["suspicious_object_detected"]
      else if threat_level = "HIGH_THREAT" ∧ confidence < 1/2 then
        ["uncertain_threat_requires_validation"]
      else []) ∧
    (calculate_suspicious_indicators label confidence threat_level).length ≤ 1 := by
  have htab : calculate_suspicious_indicators label confidence threat_level =
      (if threat_level = "HIGH_THREAT" ∧ 7/10 < confidence then
        ["high_confidence_weapon_detection"]
      else if threat_level = "MEDIUM_THREAT" ∧ 1/2 < confidence then
        ["suspicious_object_detected"]
      else if threat_level = "HIGH_THREAT" ∧ confidence < 1/2 then
        ["uncertain_threat_requires_validation"]
      else []) := by
    by_cases hH : threat_level = "HIGH_THREAT"
    · have hM : threat_level ≠ "MEDIUM_THREAT" := by rw [hH]; decide
      by_cases h7 : 7/10 < confidence
      · have h5 : ¬ confidence < 1/2 := by linarith
        simp [calculate_suspicious_indicators, hH, hM, h7, h5]
        linarith
      · by_cases h5 : confidence < 1/2 <;>
          simp [calculate_suspicious_indicators, hH, hM, h7, h5]
    · by_cases hM : threat_level = "MEDIUM_THREAT"
      · by_cases h5 : 1/2 < confidence <;>
          simp [calculate_suspicious_indicators, hH, hM, h5]
      · simp [calculate_suspicious_indicators, hH, hM]
  refine ⟨htab, ?_⟩
  rw [htab]
  split_ifs <;> simp

/-- C8: In the threat-intelligence payload built from a tracking state,
`threat_summary.alert_level` is `"HIGH"` iff some currently active tracked
object has `threat_level == HIGH_THREAT` (the distribution it reads counts
active objects only), and `"NORMAL"` exactly otherwise — an inactive
`HIGH_THREAT` object alone never yields `"HIGH"`. -/
theorem c8_alert_level (s : C4ISRTrackingState) :
    ((threatSummaryOf s).alert_level = "HIGH" ↔
      ∃ p ∈ s.tracked_objects, p.2.is_active = true ∧
        p.2.threat_level = "HIGH_THREAT") ∧
    ((threatSummaryOf s).alert_level = "NORMAL" ↔
      ¬ ∃ p ∈ s.tracked_objects, p.2.is_active = true ∧
        p.2.threat_level = "HIGH_THREAT") := by
  have hcount : 0 < (get_analytics s).threat_distribution "HIGH_THREAT" ↔
      ∃ p ∈ s.tracked_objects, p.2.is_active = true ∧
        p.2.threat_level = "HIGH_THREAT" := by
    simp only [get_analytics]
    rw [List.countP_pos_iff]
    constructor
    · rintro ⟨o, ho, hth⟩
      simp only [activeObjects, List.mem_filter, List.mem_map] at ho
      rcases ho with ⟨⟨p, hp, hpo⟩, hact⟩
      subst hpo
      exact ⟨p, hp, hact, by simpa using hth⟩
    · rintro ⟨p, hp, hact, hth⟩
      refine ⟨p.2, ?_, by simpa using hth⟩
      simp only [activeObjects, List.mem_filter, List.mem_map]
      exact ⟨⟨p, hp, rfl⟩, hact⟩
  constructor
  · unfold threatSummaryOf
    by_cases h : 0 < (get_analytics s).threat_distribution "HIGH_THREAT"
    · simpa [h] using hcount.mp h
    · simp only [h, if_false]
      constructor
      · intro hcontra
        exact absurd hcontra (by decide)
      · intro hex
        exact absurd (hcount.mpr hex) h
  · unfold threatSummaryOf
    by_cases h : 0 < (get_analytics s).threat_distribution "HIGH_THREAT"
    · simp only [h, if_true]
      constructor
      · intro hcontra
        exact absurd hcontra (by decide)
      · intro hnex
        exact absurd (hcount.mp h) hnex
    · simp only [h, if_false]
      constructor
      · intro _
        exact fun hex => absurd (hcount.mpr hex) h
      · intro _
        trivial

/-- C2: After any trace in which `update_object` was called `N ≥ 1` times on a
track ID with confidences `c1..cN`, the stored record has
`frame_count = N`, `total_confidence = c1 + ... + cN`,
`avg_confidence = total_confidence / frame_count`, and `max_confidence` is the
maximum of `c1..cN`; moreover `frame_count` never decreases under any
operation. -/
theorem c2_running_statistics :
    (∀ (es : List Event) (tid : String), updsFor tid es ≠ [] →
      ∃ obj, lookupA (run es).tracked_objects tid = some obj ∧
        obj.frame_count = (updsFor tid es).length ∧
        obj.total_confidence = ((updsFor tid es).map UpdArgs.confidence).sum ∧
        obj.avg_confidence = obj.total_confidence / (obj.frame_count : ℚ) ∧
        obj.max_confidence ∈ (updsFor tid es).map UpdArgs.confidence ∧
        ∀ c ∈ (updsFor tid es).map UpdArgs.confidence, c ≤ obj.max_confidence) ∧
    (∀ (s : C4ISRTrackingState) (e : Event) (tid : String) (obj : TrackedObj),
      lookupA s.tracked_objects tid = some obj →
      ∃ obj2, lookupA (step s e).tracked_objects tid = some obj2 ∧
        obj.frame_count ≤ obj2.frame_count) := by
  constructor
  · intro es tid hne
    rw [tracked_characterization]
    cases has : updsFor tid es with
    | nil => exact absurd has hne
    | cons a rest =>
      refine ⟨setActive (activeStatus tid es) (rest.foldl stepObj (initObj tid a)),
        by simp [objOfUpdates], ?_, ?_, ?_, ?_, ?_⟩
      · show (rest.foldl stepObj (initObj tid a)).frame_count = _
        rw [foldl_stepObj_frame_count]
        simp only [initObj, List.length_cons]
        omega
      · show (rest.foldl stepObj (initObj tid a)).total_confidence = _
        rw [foldl_stepObj_total]
        simp [initObj]
      · show (rest.foldl stepObj (initObj tid a)).avg_confidence =
          (rest.foldl stepObj (initObj tid a)).total_confidence /
            ((rest.foldl stepObj (initObj tid a)).frame_count : ℚ)
        exact foldl_stepObj_avg rest (initObj tid a) (by simp [initObj])
      · show (rest.foldl stepObj (initObj tid a)).max_confidence ∈ _
        rw [foldl_stepObj_max]
        rcases foldl_max_mem (l := rest.map UpdArgs.confidence)
            (a := (initObj tid a).max_confidence) with hm | hm
        · rw [hm]
          simp [initObj]
        · simp [List.mem_cons_of_mem, hm]
      · intro c hc
        show c ≤ (rest.foldl stepObj (initObj tid a)).max_confidence
        rw [foldl_stepObj_max]
        have hc2 : c = a.confidence ∨ ∃ x ∈ rest, x.confidence = c := by
          simpa using hc
        rcases hc2 with rfl | ⟨x, hx, rfl⟩
        · exact le_foldl_max
        · exact mem_le_foldl_max (List.mem_map_of_mem UpdArgs.confidence hx)
  · intro s e tid obj h
    cases e with
    | upd t a =>
      by_cases ht : t = tid
      · subst ht
        refine ⟨stepObj obj a, ?_, by simp [stepObj]⟩
        show lookupA (update_object s t a.label a.confidence a.bbox a.ts
            a.threat).tracked_objects t = some (stepObj obj a)
        simpa using lookupA_update_self_some s t a.label a.confidence a.bbox
          a.ts a.threat h
      · refine ⟨obj, ?_, le_refl _⟩
        show lookupA (update_object s t a.label a.confidence a.bbox a.ts
            a.threat).tracked_objects tid = some obj
        rw [lookupA_update_ne s t _ _ _ _ _ ht]
        exact h
    | mark c =>
      refine ⟨if tid ∈ c then obj else setActive false obj, ?_, ?_⟩
      · show lookupA (mark_inactive_objects s c).tracked_objects tid = _
        rw [lookupA_mark, h]
        rfl
      · by_cases hc : tid ∈ c <;> simp [hc, setActive]

/-- C3: For every trace and threshold `k`, `get_persistent_objects k` contains
a track ID iff that ID's record exists and has `frame_count ≥ k` (active or
not); an ID updated in exactly one frame is absent from the result for any
`k ≥ 2`. -/
theorem c3_persistence_gate :
    (∀ (es : List Event) (k : Nat) (tid : String) (obj : TrackedObj),
      lookupA (get_persistent_objects (run es) k) tid = some obj ↔
        lookupA (run es).tracked_objects tid = some obj ∧ k ≤ obj.frame_count) ∧
    (∀ (es : List Event) (tid : String) (a : UpdArgs) (k : Nat),
      updsFor tid es = [a] → 2 ≤ k →
        lookupA (get_persistent_objects (run es) k) tid = none) := by
  have hfilter : ∀ (es : List Event) (k : Nat) (tid : String),
      lookupA (get_persistent_objects (run es) k) tid =
        (lookupA (run es).tracked_objects tid).bind
          (fun v => if decide (k ≤ v.frame_count) then some v else none) := by
    intro es k tid
    exact lookupA_filter_snd (run_keys_nodup es) (fun v => decide (k ≤ v.frame_count)) tid
  constructor
  · intro es k tid obj
    rw [hfilter]
    cases hl : lookupA (run es).tracked_objects tid with
    | none => simp
    | some v =>
      simp only [Option.some_bind]
      by_cases hk : k ≤ v.frame_count
      · rw [if_pos (by simpa using hk)]
        simp only [Option.some.injEq]
        constructor
        · rintro rfl
          exact ⟨rfl, hk⟩
        · rintro ⟨h1, _⟩
          exact h1
      · rw [if_neg (by simpa using hk)]
        constructor
        · intro hv
          exact absurd hv (by simp)
        · rintro ⟨h1, hx⟩
          cases Option.some.inj h1
          exact absurd hx hk
  · intro es tid a k ha hk
    rw [hfilter]
    have hchar := tracked_characterization es tid
    rw [ha] at hchar
    simp only [objOfUpdates, List.foldl_nil, Option.map_some'] at hchar
    rw [hchar]
    simp only [Option.some_bind]
    rw [if_neg]
    simp only [decide_eq_true_eq, setActive, initObj]
    omega

/-- C5: After any trace whose `update_object` calls on a track ID supplied
bboxes `b1..bn` (`n ≥ 1`), the stored `bbox_history` equals the last
`min(n, 30)` of `b1..bn` in order (FIFO eviction of the oldest), its length is
`min(n, 30)`, and no record's history ever exceeds 30 entries. -/
theorem c5_bounded_history :
    (∀ (es : List Event) (tid : String), updsFor tid es ≠ [] →
      ∃ obj, lookupA (run es).tracked_objects tid = some obj ∧
        obj.bbox_history = lastN 30 ((updsFor tid es).map UpdArgs.bbox) ∧
        obj.bbox_history.length = min (updsFor tid es).length 30) ∧
    (∀ (es : List Event) (tid : String) (obj : TrackedObj),
      lookupA (run es).tracked_objects tid = some obj →
        obj.bbox_history.length ≤ 30) := by
  have hmain : ∀ (es : List Event) (tid : String) (a : UpdArgs) (rest : List UpdArgs),
      updsFor tid es = a :: rest →
      lookupA (run es).tracked_objects tid =
        some (setActive (activeStatus tid es) (rest.foldl stepObj (initObj tid a))) ∧
      (rest.foldl stepObj (initObj tid a)).bbox_history =
        lastN 30 ((a :: rest).map UpdArgs.bbox) := by
    intro es tid a rest has
    constructor
    · rw [tracked_characterization, has]
      simp [objOfUpdates]
    · have hinit : (initObj tid a).bbox_history = lastN 30 [a.bbox] := by
        simp [initObj, lastN]
      have hfold := foldl_stepObj_history rest (initObj tid a) [a.bbox] hinit
      simpa using hfold
  constructor
  · intro es tid hne
    cases has : updsFor tid es with
    | nil => exact absurd has hne
    | cons a rest =>
      obtain ⟨hl, hh⟩ := hmain es tid a rest has
      refine ⟨_, hl, ?_, ?_⟩
      · show (rest.foldl stepObj (initObj tid a)).bbox_history = _
        rw [hh]
      · show (rest.foldl stepObj (initObj tid a)).bbox_history.length = _
        rw [hh, lastN_length]
        simp
  · intro es tid obj h
    cases has : updsFor tid es with
    | nil =>
      rw [tracked_characterization, has] at h
      simp [objOfUpdates] at h
    | cons a rest =>
      obtain ⟨hl, hh⟩ := hmain es tid a rest has
      rw [h] at hl
      cases Option.some.inj hl
      show (rest.foldl stepObj (initObj tid a)).bbox_history.length ≤ 30
      rw [hh, lastN_length]
      exact Nat.min_le_right _ _

/-- C6: In `C4ISRTrackingState`, an alert is appended to `threat_alerts`
exactly when `update_object` runs on a first-seen track ID whose supplied
threat level is `HIGH_THREAT` or `MEDIUM_THREAT`; updates to already-known IDs
never append (even on escalation), `mark_inactive_objects` never touches the
alert list, and `get_analytics` exposes only the most recent 10 alerts. -/
theorem c6_threat_alert_first_sight :
    (∀ (es : List Event) (tid : String) (a : UpdArgs),
      (run (es ++ [Event.upd tid a])).threat_alerts =
        (run es).threat_alerts ++
          (if updsFor tid es = [] ∧
              (a.threat = "HIGH_THREAT" ∨ a.threat = "MEDIUM_THREAT") then
            [mkAlert tid a]
          else [])) ∧
    (∀ (es : List Event) (c : Finset String),
      (run (es ++ [Event.mark c])).threat_alerts = (run es).threat_alerts) ∧
    (∀ s : C4ISRTrackingState,
      (get_analytics s).threat_alerts = lastN 10 s.threat_alerts) := by
  refine ⟨?_, ?_, fun s => rfl⟩
  · intro es tid a
    rw [run_append]
    show (update_object (run es) tid a.label a.confidence a.bbox a.ts
        a.threat).threat_alerts = _
    cases hl : lookupA (run es).tracked_objects tid with
    | none =>
      have hnil : updsFor tid es = [] := by
        have hchar := tracked_characterization es tid
        rw [hl] at hchar
        exact (objOfUpdates_eq_none_iff tid _).mp (Option.map_eq_none'.mp hchar.symm)
      simp only [update_object, hl]
      by_cases hthr : a.threat = "HIGH_THREAT" ∨ a.threat = "MEDIUM_THREAT"
      · simp [hthr, hnil]
      · simp [hthr, hnil]
    | some obj =>
      have hne : updsFor tid es ≠ [] := by
        intro hcon
        have hchar := tracked_characterization es tid
        rw [hl, hcon] at hchar
        simp [objOfUpdates] at hchar
      simp only [update_object, hl]
      simp [hne]
  · intro es c
    rw [run_append]
    rfl

/-- C10 (implicit invariant): along every trace, `total_unique_objects` equals
the number of `tracked_objects` entries (the counter is bumped exactly when a
new key is inserted and nothing is ever deleted), the analytics fields
`total_unique_objects` and `tracked_objects_count` therefore agree, and both
quantities are monotone under every single operation. -/
theorem c10_unique_counter_invariant :
    (∀ es : List Event,
      (run es).total_unique_objects = (run es).tracked_objects.length) ∧
    (∀ es : List Event,
      (get_analytics (run es)).total_unique_objects =
        (get_analytics (run es)).tracked_objects_count) ∧
    (∀ (s : C4ISRTrackingState) (e : Event),
      s.total_unique_objects ≤ (step s e).total_unique_objects ∧
      s.tracked_objects.length ≤ (step s e).tracked_objects.length) := by
  have hmain : ∀ es : List Event,
      (run es).total_unique_objects = (run es).tracked_objects.length := by
    intro es
    induction es using List.reverseRecOn with
    | nil => rfl
    | append_singleton es e ih =>
      rw [run_append]
      cases e with
      | upd t a =>
        cases hl : lookupA (run es).tracked_objects t with
        | none =>
          simp only [step, update_object, hl]
          simp [ih]
        | some obj =>
          simp only [step, update_object, hl]
          simp [setA_length, ih]
      | mark c =>
        simp only [step, mark_inactive_objects]
        simp [ih]
  refine ⟨hmain, fun es => hmain es, ?_⟩
  intro s e
  cases e with
  | upd t a =>
    cases hl : lookupA s.tracked_objects t with
    | none =>
      constructor
      · show s.total_unique_objects ≤ (update_object s t a.label a.confidence
            a.bbox a.ts a.threat).total_unique_objects
        simp [update_object, hl]
      · show s.tracked_objects.length ≤ (update_object s t a.label a.confidence
            a.bbox a.ts a.threat).tracked_objects.length
        simp [update_object, hl]
    | some obj =>
      constructor
      · show s.total_unique_objects ≤ (update_object s t a.label a.confidence
            a.bbox a.ts a.threat).total_unique_objects
        simp [update_object, hl]
      · show s.tracked_objects.length ≤ (update_object s t a.label a.confidence
            a.bbox a.ts a.threat).tracked_objects.length
        simp [update_object, hl, setA_length]
  | mark c =>
    constructor
    · exact le_refl _
    · show s.tracked_objects.length ≤
        (mark_inactive_objects s c).tracked_objects.length
      simp [mark_inactive_objects]

/-- C4: `mark_inactive_objects S` flags every tracked ID outside `S` inactive
and expels it from `active_track_ids`, leaves every tracked ID inside `S`
untouched (record and active-set membership), and a subsequent `update_object`
on a known ID flips `is_active` back to true while incrementing `frame_count`
and accumulating — never resetting — every other field of the record. -/
theorem c4_inactive_transition :
    (∀ (s : C4ISRTrackingState) (c : Finset String) (tid : String)
        (obj : TrackedObj),
      lookupA s.tracked_objects tid = some obj → tid ∉ c →
        lookupA (mark_inactive_objects s c).tracked_objects tid =
            some (setActive false obj) ∧
          tid ∉ (mark_inactive_objects s c).active_track_ids) ∧
    (∀ (s : C4ISRTrackingState) (c : Finset String) (tid : String)
        (obj : TrackedObj),
      lookupA s.tracked_objects tid = some obj → tid ∈ c →
        lookupA (mark_inactive_objects s c).tracked_objects tid = some obj ∧
          (tid ∈ (mark_inactive_objects s c).active_track_ids ↔
            tid ∈ s.active_track_ids)) ∧
    (∀ (s : C4ISRTrackingState) (tid label : String) (confidence : ℚ)
        (bbox : BBox) (frame_timestamp threat_level : String) (obj : TrackedObj),
      lookupA s.tracked_objects tid = some obj →
        lookupA (update_object s tid label confidence bbox frame_timestamp
            threat_level).tracked_objects tid =
          some { obj with
            last_seen := frame_timestamp
            frame_count := obj.frame_count + 1
            total_confidence := obj.total_confidence + confidence
            avg_confidence :=
              (obj.total_confidence + confidence) / ((obj.frame_count : ℚ) + 1)
            max_confidence := max obj.max_confidence confidence
            bbox_history := trimHistory (obj.bbox_history ++ [bbox])
            is_active := true
            suspicious_indicators :=
              calculate_suspicious_indicators label confidence threat_level }) := by
  refine ⟨?_, ?_, ?_⟩
  · intro s c tid obj h hc
    constructor
    · rw [lookupA_mark, h]
      simp [hc]
    · rw [mark_mem_active]
      rintro ⟨-, hor⟩
      rcases hor with hin | hout
      · exact hc hin
      · exact hout (lookupA_mem_keys h)
  · intro s c tid obj h hc
    constructor
    · rw [lookupA_mark, h]
      simp [hc]
    · rw [mark_mem_active]
      constructor
      · rintro ⟨hm, -⟩
        exact hm
      · intro hm
        exact ⟨hm, Or.inl hc⟩
  · intro s tid label confidence bbox frame_timestamp threat_level obj h
    exact lookupA_update_self_some s tid label confidence bbox frame_timestamp
      threat_level h

/-! ### Identity-reconciler lemmas (C1) -/

theorem get_or_create_lookup_self {α : Type} [DecidableEq α] (gen : Nat → String)
    (s : TrackingIDService α) (nid : α) (mt : String) :
    lookupA (get_or_create_cuid gen s nid mt).2.id_mapping (mt, nid) =
      some (get_or_create_cuid gen s nid mt).1 := by
  cases hl : lookupA s.id_mapping (mt, nid) with
  | some c =>
    simp only [get_or_create_cuid, hl]
  | none =>
    simp only [get_or_create_cuid, hl]
    rw [lookupA_append_none _ hl, lookupA_singleton_self]

theorem get_or_create_preserves_lookup {α : Type} [DecidableEq α]
    (gen : Nat → String) (s : TrackingIDService α) (nid : α) (mt : String)
    {key : String × α} {c : String} (h : lookupA s.id_mapping key = some c) :
    lookupA (get_or_create_cuid gen s nid mt).2.id_mapping key = some c := by
  cases hl : lookupA s.id_mapping (mt, nid) with
  | some c2 =>
    simp only [get_or_create_cuid, hl]
    exact h
  | none =>
    simp only [get_or_create_cuid, hl]
    exact lookupA_append_some _ h

theorem get_or_create_good {α : Type} [DecidableEq α] {gen : Nat → String}
    (hinj : Function.Injective gen) {s : TrackingIDService α}
    (h : GoodState gen s) (nid : α) (mt : String) :
    GoodState gen (get_or_create_cuid gen s nid mt).2 := by
  cases hl : lookupA s.id_mapping (mt, nid) with
  | some c =>
    simp only [get_or_create_cuid, hl]
    exact h
  | none =>
    simp only [get_or_create_cuid, hl, GoodState, List.map_append, List.map_cons,
      List.map_nil]
    obtain ⟨hnd, hrange⟩ := h
    constructor
    · rw [List.nodup_append]
      refine ⟨hnd, List.nodup_singleton _, ?_⟩
      intro x hx hx2
      simp at hx2
      subst hx2
      obtain ⟨n, hn, hgn⟩ := hrange _ hx
      exact absurd (hinj hgn.symm) (by omega)
    · intro c hc
      rcases List.mem_append.mp hc with hc | hc
      · obtain ⟨n, hn, hgn⟩ := hrange _ hc
        exact ⟨n, by omega, hgn⟩
      · simp at hc
        exact ⟨s.counter, by omega, hc⟩

theorem runCalls_preserves_lookup {α : Type} [DecidableEq α] (gen : Nat → String)
    (calls : List (α × String)) (s : TrackingIDService α)
    {key : String × α} {c : String} (h : lookupA s.id_mapping key = some c) :
    lookupA (runCalls gen s calls).1.id_mapping key = some c := by
  induction calls generalizing s with
  | nil => simpa [runCalls] using h
  | cons p rest ih =>
    simp only [runCalls]
    exact ih _ (get_or_create_preserves_lookup gen s p.1 p.2 h)

theorem runCalls_good {α : Type} [DecidableEq α] {gen : Nat → String}
    (hinj : Function.Injective gen) (calls : List (α × String))
    {s : TrackingIDService α} (h : GoodState gen s) :
    GoodState gen (runCalls gen s calls).1 := by
  induction calls generalizing s with
  | nil => simpa [runCalls] using h
  | cons p rest ih =>
    simp only [runCalls]
    exact ih (get_or_create_good hinj h p.1 p.2)

theorem runCalls_output_lookup {α : Type} [DecidableEq α] (gen : Nat → String)
    (calls : List (α × String)) (s : TrackingIDService α) (i : Nat)
    (ci : α × String) (oi : String) (hci : calls[i]? = some ci)
    (hoi : (runCalls gen s calls).2[i]? = some oi) :
    lookupA (runCalls gen s calls).1.id_mapping (ci.2, ci.1) = some oi := by
  induction calls generalizing s i with
  | nil => simp at hci
  | cons p rest ih =>
    cases i with
    | zero =>
      simp only [List.getElem?_cons_zero, Option.some.injEq] at hci
      simp only [runCalls, List.getElem?_cons_zero, Option.some.injEq] at hoi
      subst hci
      subst hoi
      exact runCalls_preserves_lookup gen rest _
        (get_or_create_lookup_self gen s p.1 p.2)
    | succ n =>
      simp only [List.getElem?_cons_succ] at hci
      simp only [runCalls, List.getElem?_cons_succ] at hoi
      exact ih _ n hci hoi

/-- C1: Within one `TrackingIDService` session (the CUID generator assumed to
never emit the same value twice), two `get_or_create_cuid` calls return the
same track ID iff they were made with the same `(model_type, native_id)` pair:
equal pairs always re-read the stored CUID, distinct pairs never collide. -/
theorem c1_identity_stability {α : Type} [DecidableEq α] (gen : Nat → String)
    (hinj : Function.Injective gen) (calls : List (α × String)) (i j : Nat)
    (ci cj : α × String) (oi oj : String)
    (hci : calls[i]? = some ci) (hcj : calls[j]? = some cj)
    (hoi : (runCalls gen TrackingIDService.init calls).2[i]? = some oi)
    (hoj : (runCalls gen TrackingIDService.init calls).2[j]? = some oj) :
    oi = oj ↔ ci = cj := by
  have hinit : GoodState gen (TrackingIDService.init : TrackingIDService α) := by
    simp [GoodState, TrackingIDService.init]
  have hgood := runCalls_good hinj calls hinit
  have hfi := runCalls_output_lookup gen calls TrackingIDService.init i ci oi hci hoi
  have hfj := runCalls_output_lookup gen calls TrackingIDService.init j cj oj hcj hoj
  constructor
  · intro h
    subst h
    have hkeys := lookupA_inj_of_values_nodup hgood.1 hfi hfj
    have h1 : ci.2 = cj.2 := congrArg Prod.fst hkeys
    have h2 : ci.1 = cj.1 := congrArg Prod.snd hkeys
    exact Prod.ext h2 h1
  · intro h
    subst h
    rw [hfi] at hfj
    exact Option.some.inj hfj

/-- C9: Every publish/KV-write operation absorbs transport failures — for
every failure oracle it returns normally (never `Except.error`) with the
tracking state it read unchanged — and with no KV store configured
(`kv = none`) it returns without any effect; when both puts succeed, exactly
the two documented keys are written. -/
theorem c9_publish_failures_absorbed :
    (∀ (kv : Option KVStore) (s : C4ISRTrackingState) (eid : String),
      ∃ kv2, publish_tracking_state kv s eid = Except.ok (kv2, s)) ∧
    (∀ (kv : Option KVStore) (s : C4ISRTrackingState) (eid : String),
      ∃ kv2, publish_threat_intelligence kv s eid = Except.ok (kv2, s)) ∧
    (∀ (kv : Option KVStore) (s : C4ISRTrackingState) (a : Analytics)
        (eid : String),
      ∃ kv2, publish_state_to_kv kv s a eid = Except.ok (kv2, s)) ∧
    (∀ (s : C4ISRTrackingState) (a : Analytics) (eid : String),
      publish_tracking_state none s eid = Except.ok (none, s) ∧
      publish_threat_intelligence none s eid = Except.ok (none, s) ∧
      publish_state_to_kv none s a eid = Except.ok (none, s)) ∧
    (∀ (store : KVStore) (s : C4ISRTrackingState) (eid : String),
      store.putFails (eid ++ ".detections.tracking_objects") = false →
      store.putFails (eid ++ ".analytics.summary") = false →
      publish_tracking_state (some store) s eid =
        Except.ok (some { store with entries := store.entries ++
            [(eid ++ ".detections.tracking_objects",
              KVValue.state (stateDataOf s eid)),
             (eid ++ ".analytics.summary",
              KVValue.analyticsSummary (get_analytics s))] }, s)) := by
  refine ⟨?_, ?_, ?_, ?_, ?_⟩
  · intro kv s eid
    cases kv with
    | none => exact ⟨none, rfl⟩
    | some store =>
      cases h1 : store.putFails (eid ++ ".detections.tracking_objects") with
      | true =>
        refine ⟨some store, ?_⟩
        simp [publish_tracking_state, KVStore.put, h1]
      | false =>
        cases h2 : store.putFails (eid ++ ".analytics.summary") with
        | true =>
          refine ⟨some { store with entries := store.entries ++
            [(eid ++ ".detections.tracking_objects",
              KVValue.state (stateDataOf s eid))] }, ?_⟩
          simp [publish_tracking_state, KVStore.put, h1, h2]
        | false =>
          refine ⟨some { store with entries := (store.entries ++
            [(eid ++ ".detections.tracking_objects",
              KVValue.state (stateDataOf s eid))]) ++
            [(eid ++ ".analytics.summary",
              KVValue.analyticsSummary (get_analytics s))] }, ?_⟩
          simp [publish_tracking_state, KVStore.put, h1, h2]
  · intro kv s eid
    cases kv with
    | none => exact ⟨none, rfl⟩
    | some store =>
      cases h1 : store.putFails (eid ++ ".c4isr.threat_intelligence") with
      | true =>
        refine ⟨some store, ?_⟩
        simp [publish_threat_intelligence, KVStore.put, h1]
      | false =>
        cases h2 : store.putFails (eid ++ ".analytics.c4isr_summary") with
        | true =>
          refine ⟨some { store with entries := store.entries ++
            [(eid ++ ".c4isr.threat_intelligence",
              KVValue.threatIntel (threatDataOf s eid))] }, ?_⟩
          simp [publish_threat_intelligence, KVStore.put, h1, h2]
        | false =>
          refine ⟨some { store with entries := (store.entries ++
            [(eid ++ ".c4isr.threat_intelligence",
              KVValue.threatIntel (threatDataOf s eid))]) ++
            [(eid ++ ".analytics.c4isr_summary",
              KVValue.analyticsSummary (get_analytics s))] }, ?_⟩
          simp [publish_threat_intelligence, KVStore.put, h1, h2]
  · intro kv s a eid
    cases kv with
    | none => exact ⟨none, rfl⟩
    | some store =>
      cases h1 : store.putFails (eid ++ ".detections.objects") with
      | true =>
        refine ⟨some store, ?_⟩
        simp [publish_state_to_kv, KVStore.put, h1]
      | false =>
        cases h2 : store.putFails (eid ++ ".analytics.summary") with
        | true =>
          refine ⟨some { store with entries := store.entries ++
            [(eid ++ ".detections.objects",
              KVValue.state
                { entity_id := eid
                  analytics := a
                  tracked_objects := (get_persistent_objects s 3).map fun p =>
                    (p.1, objSummaryOf p.2) })] }, ?_⟩
          simp [publish_state_to_kv, KVStore.put, h1, h2]
        | false =>
          refine ⟨some { store with entries := (store.entries ++
            [(eid ++ ".detections.objects",
              KVValue.state
                { entity_id := eid
                  analytics := a
                  tracked_objects := (get_persistent_objects s 3).map fun p =>
                    (p.1, objSummaryOf p.2) })]) ++
            [(eid ++ ".analytics.summary",
              KVValue.analyticsSummary a)] }, ?_⟩
          simp [publish_state_to_kv, KVStore.put, h1, h2]
  · intro s a eid
    exact ⟨rfl, rfl, rfl⟩
  · intro store s eid h1 h2
    simp [publish_tracking_state, KVStore.put, h1, h2, List.append_assoc]

/-! ### Witness theorems -/

theorem wgen_injective : Function.Injective wgen := by
  intro a b h
  have hlen := congrArg (fun s => s.data.length) h
  simpa [wgen] using hlen

/-- Witness for C1: the first two calls (same pair) return the same track ID;
the first and third (distinct pairs) return different ones. -/
theorem c1_identity_stability_witness :
    (("" : String) = "" ↔ ((7, "yoloe") : Nat × String) = (7, "yoloe")) ∧
    (("" : String) = "a" ↔ ((7, "yoloe") : Nat × String) = (3, "yoloe")) := by
  constructor
  · exact c1_identity_stability wgen wgen_injective wcalls 0 1 _ _ "" ""
      (by decide) (by decide) (by decide) (by decide)
  · exact c1_identity_stability wgen wgen_injective wcalls 0 2 _ _ "" "a"
      (by decide) (by decide) (by decide) (by decide)

/-- Witness for C2 at a concrete two-object trace. -/
theorem c2_running_statistics_witness :
    ∃ obj, lookupA (run wTraceAB).tracked_objects "A" = some obj ∧
      obj.frame_count = (updsFor "A" wTraceAB).length ∧
      obj.total_confidence = ((updsFor "A" wTraceAB).map UpdArgs.confidence).sum ∧
      obj.avg_confidence = obj.total_confidence / (obj.frame_count : ℚ) ∧
      obj.max_confidence ∈ (updsFor "A" wTraceAB).map UpdArgs.confidence ∧
      ∀ c ∈ (updsFor "A" wTraceAB).map UpdArgs.confidence,
        c ≤ obj.max_confidence :=
  c2_running_statistics.1 wTraceAB "A" (by simp [updsFor, wTraceAB])

/-- Witness for C3: an object updated in exactly one frame is absent from
`get_persistent_objects 2`. -/
theorem c3_persistence_gate_witness :
    lookupA (get_persistent_objects (run wTraceAB) 2) "A" = none :=
  c3_persistence_gate.2 wTraceAB "A" wArgsA 2 (by simp [updsFor, wTraceAB])
    (by norm_num)

/-- Witness for C4: after a frame reporting only `{A}`, object `B` is flagged
inactive and expelled from the active-ID set. -/
theorem c4_inactive_transition_witness :
    lookupA (mark_inactive_objects (run wTraceAB) {"A"}).tracked_objects "B" =
        some (setActive false (initObj "B" wArgsB)) ∧
      "B" ∉ (mark_inactive_objects (run wTraceAB) {"A"}).active_track_ids :=
  c4_inactive_transition.1 (run wTraceAB) {"A"} "B" (initObj "B" wArgsB)
    (by simp [run, wTraceAB, step, update_object, lookupA, initState])
    (by decide)

/-- Witness for C5 at a concrete repeated-update trace. -/
theorem c5_bounded_history_witness :
    ∃ obj, lookupA (run wTraceT).tracked_objects "T" = some obj ∧
      obj.bbox_history = lastN 30 ((updsFor "T" wTraceT).map UpdArgs.bbox) ∧
      obj.bbox_history.length = min (updsFor "T" wTraceT).length 30 :=
  c5_bounded_history.1 wTraceT "T" (by simp [updsFor, wTraceT])

/-- Witness for C9: with a healthy transport both documented keys are written
and the tracking state passes through unchanged. -/
theorem c9_publish_failures_absorbed_witness :
    publish_tracking_state (some wStore) initState "e" =
      Except.ok (some { wStore with entries := wStore.entries ++
          [("e" ++ ".detections.tracking_objects",
            KVValue.state (stateDataOf initState "e")),
           ("e" ++ ".analytics.summary",
            KVValue.analyticsSummary (get_analytics initState))] }, initState) :=
  c9_publish_failures_absorbed.2.2.2.2 wStore initState "e" rfl rfl

end Overwatch
